import Mathlib

/-!
Verification of the RabbitX Solana custody program specification against the
repository's source code.

The repository contains the TypeScript test harness and administration
scripts for the program (`tests/utils.ts`, `tests/withdraw-operations.ts`,
`tests/timelock-operations.ts`, `tests/basic-setup.ts`, assorted scripts)
and a Go log listener.  The Rust on-chain program itself
(`programs/rbx/src/lib.rs`) is not part of the source tree, so on-chain
behaviour is modelled from the specification where needed; every such
definition carries a doc comment starting with `Modelled from the spec:`.

Byte strings are modelled as `List Nat` with each element a byte value.
Machine integers are `Nat` with explicit reductions modulo `2 ^ w`.
-/

/-! ## Keccak-256 (as used by `ethers.keccak256` in `tests/utils.ts`) -/

/-- Rotate a 64-bit word (a `Nat` below `2 ^ 64`) left by `n` bits. -/
def rotl64 (x n : Nat) : Nat :=
  ((x <<< n) % 2 ^ 64) ||| (x >>> (64 - n))

/-- The 24 Keccak-f[1600] round constants. -/
def keccakRC : List Nat :=
  [1, 32898, 9223372036854808714, 9223372039002292224, 32907, 2147483649, 9223372039002292353,
   9223372036854808585, 138, 136, 2147516425, 2147483658, 2147516555, 9223372036854775947,
   9223372036854808713, 9223372036854808579, 9223372036854808578, 9223372036854775936, 32778,
   9223372039002259466, 9223372039002292353, 9223372036854808704, 2147483649, 9223372039002292232]

/-- Keccak rho rotation offsets, one row per `y`, indexed by `x`. -/
def keccakRhoRows : List (List Nat) :=
  [[0, 1, 62, 28, 27], [36, 44, 6, 55, 20], [3, 10, 43, 25, 39],
   [41, 45, 15, 21, 8], [18, 2, 61, 56, 14]]

/-- Keccak rho rotation offsets for the flat lane index `x + 5 * y`. -/
def keccakRho : List Nat :=
  keccakRhoRows.flatten

/-- Keccak theta step on a 25-lane state. -/
def keccakTheta (st : List Nat) : List Nat :=
  let c := fun x => st.getD x 0 ^^^ st.getD (x + 5) 0 ^^^ st.getD (x + 10) 0 ^^^
    st.getD (x + 15) 0 ^^^ st.getD (x + 20) 0
  let d := fun x => c ((x + 4) % 5) ^^^ rotl64 (c ((x + 1) % 5)) 1
  (List.range 25).map (fun i => st.getD i 0 ^^^ d (i % 5))

/-- Keccak rho and pi steps: lane `(x, y)` is rotated and moved to `(y, 2x + 3y)`. -/
def keccakRhoPi (st : List Nat) : List Nat :=
  (List.range 25).foldl (fun acc i =>
    let x := i % 5
    let y := i / 5
    acc.set (y + 5 * ((2 * x + 3 * y) % 5)) (rotl64 (st.getD i 0) (keccakRho.getD i 0)))
    (List.replicate 25 0)

/-- Keccak chi step. -/
def keccakChi (st : List Nat) : List Nat :=
  (List.range 25).map (fun i =>
    let x := i % 5
    let y := i / 5
    st.getD i 0 ^^^ ((st.getD ((x + 1) % 5 + 5 * y) 0 ^^^ (2 ^ 64 - 1)) &&&
      st.getD ((x + 2) % 5 + 5 * y) 0))

/-- One Keccak round: theta, rho, pi, chi, iota. -/
def keccakRound (st : List Nat) (rc : Nat) : List Nat :=
  let b := keccakChi (keccakRhoPi (keccakTheta st))
  b.set 0 (b.getD 0 0 ^^^ rc)

/-- The Keccak-f[1600] permutation (24 rounds). -/
def keccakF (st : List Nat) : List Nat :=
  keccakRC.foldl keccakRound st

/-- Interpret up to eight bytes as a little-endian 64-bit lane. -/
def bytesToLaneLE (b : List Nat) : Nat :=
  b.foldr (fun byte acc => acc * 256 + byte) 0

/-- Absorb one 136-byte block into the state and permute. -/
def keccakAbsorbBlock (st block : List Nat) : List Nat :=
  keccakF ((List.range 25).map (fun i =>
    st.getD i 0 ^^^ (if i < 17 then bytesToLaneLE ((block.drop (8 * i)).take 8) else 0)))

/-- Absorb `n` 136-byte blocks of `msg`. -/
def keccakAbsorb : Nat → List Nat → List Nat → List Nat
  | 0, _, st => st
  | n + 1, msg, st => keccakAbsorb n (msg.drop 136) (keccakAbsorbBlock st (msg.take 136))

/-- Keccak multi-rate padding with domain byte `0x01` (original Keccak, as
used by Ethereum), to a multiple of the 136-byte rate. -/
def keccakPad (msg : List Nat) : List Nat :=
  let padLen := 136 - msg.length % 136
  if padLen = 1 then msg ++ [0x81]
  else msg ++ [0x01] ++ List.replicate (padLen - 2) 0 ++ [0x80]

/-- Keccak-256 of a byte string, producing 32 bytes. -/
def keccak256 (msg : List Nat) : List Nat :=
  let p := keccakPad msg
  let st := keccakAbsorb (p.length / 136) p (List.replicate 25 0)
  (List.range 32).map (fun i => st.getD (i / 8) 0 / 2 ^ (8 * (i % 8)) % 256)

/-- The bytes of an ASCII string (all strings hashed by the harness are ASCII). -/
def asciiBytes (s : String) : List Nat :=
  s.data.map Char.toNat

/-! ## SHA-256 (as used by `crypto.createHash('sha256')` for the Anchor
account discriminator, `computeDiscriminator` in the state-check script) -/

/-- Rotate a 32-bit word right by `n` bits (`0 < n < 32`). -/
def rotr32 (x n : Nat) : Nat :=
  (x >>> n) ||| ((x <<< (32 - n)) % 2 ^ 32)

/-- SHA-256 round constants. -/
def sha256K : List Nat :=
  [1116352408, 1899447441, 3049323471, 3921009573, 961987163, 1508970993, 2453635748, 2870763221,
   3624381080, 310598401, 607225278, 1426881987, 1925078388, 2162078206, 2614888103, 3248222580,
   3835390401, 4022224774, 264347078, 604807628, 770255983, 1249150122, 1555081692, 1996064986,
   2554220882, 2821834349, 2952996808, 3210313671, 3336571891, 3584528711, 113926993, 338241895,
   666307205, 773529912, 1294757372, 1396182291, 1695183700, 1986661051, 2177026350, 2456956037,
   2730485921, 2820302411, 3259730800, 3345764771, 3516065817, 3600352804, 4094571909, 275423344,
   430227734, 506948616, 659060556, 883997877, 958139571, 1322822218, 1537002063, 1747873779,
   1955562222, 2024104815, 2227730452, 2361852424, 2428436474, 2756734187, 3204031479, 3329325298]

/-- SHA-256 initial hash value. -/
def sha256H0 : List Nat :=
  [1779033703, 3144134277, 1013904242, 2773480762, 1359893119, 2600822924, 528734635, 1541459225]

/-- Big-endian value of a byte string. -/
def beVal (b : List Nat) : Nat :=
  b.foldl (fun acc x => acc * 256 + x) 0

/-- The `k` big-endian bytes of `n % 256 ^ k`. -/
def beBytes (k n : Nat) : List Nat :=
  (List.range k).map (fun i => n / 256 ^ (k - 1 - i) % 256)

/-- The sixteen 32-bit big-endian words of one 64-byte block. -/
def sha256BlockWords (block : List Nat) : List Nat :=
  (List.range 16).map (fun i => beVal ((block.drop (4 * i)).take 4))

/-- Extend sixteen schedule words to sixty-four. -/
def sha256Extend (w : List Nat) : List Nat :=
  (List.range 48).foldl (fun w _ =>
    let n := w.length
    let s0 := rotr32 (w.getD (n - 15) 0) 7 ^^^ rotr32 (w.getD (n - 15) 0) 18 ^^^
      (w.getD (n - 15) 0 >>> 3)
    let s1 := rotr32 (w.getD (n - 2) 0) 17 ^^^ rotr32 (w.getD (n - 2) 0) 19 ^^^
      (w.getD (n - 2) 0 >>> 10)
    w ++ [(s1 + w.getD (n - 7) 0 + s0 + w.getD (n - 16) 0) % 2 ^ 32]) w

/-- One round of the SHA-256 compression function on the eight working words. -/
def sha256Step (st : List Nat) (kw : Nat) : List Nat :=
  let a := st.getD 0 0
  let b := st.getD 1 0
  let c := st.getD 2 0
  let d := st.getD 3 0
  let e := st.getD 4 0
  let f := st.getD 5 0
  let g := st.getD 6 0
  let h := st.getD 7 0
  let s1 := rotr32 e 6 ^^^ rotr32 e 11 ^^^ rotr32 e 25
  let ch := (e &&& f) ^^^ ((e ^^^ (2 ^ 32 - 1)) &&& g)
  let t1 := (h + s1 + ch + kw) % 2 ^ 32
  let s0 := rotr32 a 2 ^^^ rotr32 a 13 ^^^ rotr32 a 22
  let maj := (a &&& b) ^^^ (a &&& c) ^^^ (b &&& c)
  let t2 := (s0 + maj) % 2 ^ 32
  [(t1 + t2) % 2 ^ 32, a, b, c, (d + t1) % 2 ^ 32, e, f, g]

/-- Compress one 64-byte block into the running hash. -/
def sha256Compress (h block : List Nat) : List Nat :=
  let w := sha256Extend (sha256BlockWords block)
  let kw := (List.range 64).map (fun i => sha256K.getD i 0 + w.getD i 0)
  let st := kw.foldl sha256Step h
  (List.range 8).map (fun i => (h.getD i 0 + st.getD i 0) % 2 ^ 32)

/-- Compress `n` blocks of `msg`. -/
def sha256Blocks : Nat → List Nat → List Nat → List Nat
  | 0, _, h => h
  | n + 1, msg, h => sha256Blocks n (msg.drop 64) (sha256Compress h (msg.take 64))

/-- SHA-256 padding: `0x80`, zeros, and the 8-byte big-endian bit length. -/
def sha256Pad (msg : List Nat) : List Nat :=
  msg ++ [0x80] ++ List.replicate ((119 - msg.length % 64) % 64) 0 ++
    beBytes 8 (msg.length * 8)

/-- SHA-256 of a byte string, producing 32 bytes. -/
def sha256 (msg : List Nat) : List Nat :=
  let p := sha256Pad msg
  ((sha256Blocks (p.length / 64) p sha256H0).map (beBytes 4)).flatten

/-! ## The withdrawal signing digest (`signWithdrawal` in `tests/utils.ts`) -/

/-- `keccak256` of the EIP-712 domain type string, as in `signWithdrawal`. -/
def domainTypeHash : List Nat :=
  keccak256 (asciiBytes
    "EIP712Domain(string name,string version,uint256 chainId,address verifyingContract)")

/-- `keccak256` of the contract name `"RabbitXWithdrawal"`. -/
def domainNameHash : List Nat :=
  keccak256 (asciiBytes "RabbitXWithdrawal")

/-- `keccak256` of the contract version `"1"`. -/
def domainVersionHash : List Nat :=
  keccak256 (asciiBytes "1")

/-- The chain tag `0x534f4c414e41` (ASCII `"SOLANA"`) zero-padded on the left
to 32 bytes, as built by `ethers.zeroPadValue` in `signWithdrawal`. -/
def chainIdBytes : List Nat :=
  List.replicate 26 0 ++ [0x53, 0x4f, 0x4c, 0x41, 0x4e, 0x41]

/-- The EIP-712 domain separator over the full 32-byte ledger-state address
`contract`, exactly as concatenated in `signWithdrawal`. -/
def domainSeparator (contract : List Nat) : List Nat :=
  keccak256 (domainTypeHash ++ domainNameHash ++ domainVersionHash ++ chainIdBytes ++ contract)

/-- `keccak256` of the withdrawal type string, as in `signWithdrawal`. -/
def withdrawalTypeHash : List Nat :=
  keccak256 (asciiBytes "Withdrawal(uint256 id,address token,address trader,uint256 amount)")

/-- The eight-byte field `signWithdrawal` builds for `id` and `amount`: four
literal zero bytes followed by the big-endian bytes of the value's low 32
bits (JavaScript `>>` and `& 0xFF` operate on the value reduced mod `2 ^ 32`). -/
def u32PaddedBE (n : Nat) : List Nat :=
  [0, 0, 0, 0] ++ beBytes 4 (n % 2 ^ 32)

/-- The byte string hashed into the withdrawal hash by `signWithdrawal`:
type hash, id field, 32-byte token, 32-byte trader, amount field. -/
def withdrawalData (wid : Nat) (token trader : List Nat) (amount : Nat) : List Nat :=
  withdrawalTypeHash ++ u32PaddedBE wid ++ token ++ trader ++ u32PaddedBE amount

/-- The withdrawal hash computed by `signWithdrawal`. -/
def withdrawalHash (wid : Nat) (token trader : List Nat) (amount : Nat) : List Nat :=
  keccak256 (withdrawalData wid token trader amount)

/-- The final digest signed by `signWithdrawal`:
`keccak256(0x19 0x01 || domainSeparator || withdrawalHash)`. -/
def signingDigest (contract : List Nat) (wid : Nat) (token trader : List Nat)
    (amount : Nat) : List Nat :=
  keccak256 ([0x19, 0x01] ++ domainSeparator contract ++ withdrawalHash wid token trader amount)

/-- The withdrawal-digest byte string as the claim words it: identifier and
amount encoded as big-endian 64-bit integers (`beBytes 8`). -/
def specWithdrawalData (wid : Nat) (token trader : List Nat) (amount : Nat) : List Nat :=
  withdrawalTypeHash ++ beBytes 8 wid ++ token ++ trader ++ beBytes 8 amount

/-- The withdrawal digest as the claim words it. -/
def specWithdrawalHash (wid : Nat) (token trader : List Nat) (amount : Nat) : List Nat :=
  keccak256 (specWithdrawalData wid token trader amount)

/-- The signing digest as the claim words it: `keccak256` of the two literal
bytes `0x19 0x01`, the domain descriptor, and the withdrawal digest, with the
domain descriptor over the contract name, version, fixed chain tag and the
full 32-byte ledger-state address. -/
def specSigningDigest (contract : List Nat) (wid : Nat) (token trader : List Nat)
    (amount : Nat) : List Nat :=
  keccak256 ([0x19, 0x01] ++
    keccak256 (domainTypeHash ++ keccak256 (asciiBytes "RabbitXWithdrawal") ++
      keccak256 (asciiBytes "1") ++ chainIdBytes ++ contract) ++
    specWithdrawalHash wid token trader amount)

/-! ## The LedgerState account codec (`deserializeStateAccount` in
`tests/utils.ts`) -/

/-- Little-endian value of a byte string. -/
def leVal (b : List Nat) : Nat :=
  b.foldr (fun x acc => acc * 256 + x) 0

/-- The `k` little-endian bytes of `n % 256 ^ k`. -/
def leBytes (k n : Nat) : List Nat :=
  (List.range k).map (fun i => n / 256 ^ i % 256)

/-- A queued governance operation as decoded by the harness
(`TimelockOperation` in `tests/utils.ts`). -/
structure TimelockOperation where
  operationType : Nat
  data : List Nat
  queuedAt : Nat
  canExecuteAt : Nat
deriving Repr, DecidableEq

/-- The LedgerState account as decoded by the harness (`StateAccount` in
`tests/utils.ts`).  `timelockDelay` is stored as eight little-endian bytes;
the harness reads it as an unsigned `BN`, so it is a `Nat` here. -/
structure StateAccount where
  owner : List Nat
  withdrawalSigner : List Nat
  nextDepositNum : Nat
  nextStakeNum : Nat
  reentryLockStatus : Nat
  tokenAccountBump : Nat
  solAccountBump : Nat
  supportedTokens : List (List Nat)
  minDeposits : List (List Nat × Nat)
  timelockAuthorities : List (List Nat)
  timelockDelay : Nat
  pendingOperations : List TimelockOperation
  domainSeparator : Option (List Nat)
deriving Repr, DecidableEq

/-- Read `count` items with the item reader `f`, threading the rest of the
buffer (the decoding loops of `deserializeStateAccount`). -/
def readItems (f : List Nat → α × List Nat) : Nat → List Nat → List α × List Nat
  | 0, b => ([], b)
  | n + 1, b =>
    let p := f b
    let q := readItems f n p.2
    (p.1 :: q.1, q.2)

/-- Read one 32-byte public key. -/
def readPubkey (b : List Nat) : List Nat × List Nat :=
  (b.take 32, b.drop 32)

/-- Read one minimum-deposit entry: 32-byte token then `u64` amount. -/
def readMinDeposit (b : List Nat) : (List Nat × Nat) × List Nat :=
  ((b.take 32, leVal ((b.drop 32).take 8)), (b.drop 32).drop 8)

/-- Read one pending operation: type byte, `u32`-length-prefixed payload,
`i64` queuedAt, `i64` canExecuteAt. -/
def readOperation (b : List Nat) : TimelockOperation × List Nat :=
  let t := b.headD 0
  let b1 := b.tail
  let len := leVal (b1.take 4)
  let b2 := b1.drop 4
  let d := b2.take len
  let b3 := b2.drop len
  let q := leVal (b3.take 8)
  let b4 := b3.drop 8
  let c := leVal (b4.take 8)
  (⟨t, d, q, c⟩, b4.drop 8)

/-- Decode a LedgerState account buffer, following `deserializeStateAccount`
in `tests/utils.ts` field for field: skip the 8-byte discriminator, then read
owner, withdrawal signer, the two sequence numbers, the three single-byte
fields, the three `u32`-count-prefixed vectors, the delay, the pending
operations, and the optional domain separator behind a presence byte. -/
def deserializeStateAccount (data : List Nat) : StateAccount :=
  let b := data.drop 8
  let owner := b.take 32
  let b := b.drop 32
  let signer := b.take 20
  let b := b.drop 20
  let dep := leVal (b.take 8)
  let b := b.drop 8
  let stake := leVal (b.take 8)
  let b := b.drop 8
  let re := b.headD 0
  let b := b.tail
  let tb := b.headD 0
  let b := b.tail
  let sb := b.headD 0
  let b := b.tail
  let nTok := leVal (b.take 4)
  let b := b.drop 4
  let toks := readItems readPubkey nTok b
  let b := toks.2
  let nMin := leVal (b.take 4)
  let b := b.drop 4
  let mins := readItems readMinDeposit nMin b
  let b := mins.2
  let nAuth := leVal (b.take 4)
  let b := b.drop 4
  let auths := readItems readPubkey nAuth b
  let b := auths.2
  let delay := leVal (b.take 8)
  let b := b.drop 8
  let nOps := leVal (b.take 4)
  let b := b.drop 4
  let ops := readItems readOperation nOps b
  let b := ops.2
  let hasDom := b.headD 0
  let b := b.tail
  ⟨owner, signer, dep, stake, re, tb, sb, toks.1, mins.1, auths.1, delay, ops.1,
    if hasDom = 1 then some (b.take 32) else none⟩

/-- Encoding of one pending operation under the layout stated in the spec:
1-byte kind, `u32`-length-prefixed payload, 8-byte queuedAt and executableAt. -/
def encodeOperation (op : TimelockOperation) : List Nat :=
  op.operationType :: (leBytes 4 op.data.length ++ op.data ++
    leBytes 8 op.queuedAt ++ leBytes 8 op.canExecuteAt)

/-- Encoding of a LedgerState account body under the binary layout stated in
the spec (everything after the 8-byte discriminator): 32-byte owner, 20-byte
authorization key, two 8-byte little-endian counters, three single bytes,
`u32`-count-prefixed vectors, 8-byte delay, `u32`-count-prefixed operations,
and a presence byte before the optional domain descriptor. -/
def encodeStateBody (s : StateAccount) : List Nat :=
  s.owner ++ s.withdrawalSigner ++ leBytes 8 s.nextDepositNum ++ leBytes 8 s.nextStakeNum ++
  [s.reentryLockStatus, s.tokenAccountBump, s.solAccountBump] ++
  leBytes 4 s.supportedTokens.length ++ s.supportedTokens.flatten ++
  leBytes 4 s.minDeposits.length ++
    (s.minDeposits.map (fun p => p.1 ++ leBytes 8 p.2)).flatten ++
  leBytes 4 s.timelockAuthorities.length ++ s.timelockAuthorities.flatten ++
  leBytes 8 s.timelockDelay ++
  leBytes 4 s.pendingOperations.length ++ (s.pendingOperations.map encodeOperation).flatten ++
  (match s.domainSeparator with
   | none => [0]
   | some d => 1 :: d)

/-- Well-formedness of a LedgerState value: every fixed-width field fits the
width the layout gives it. -/
def WFState (s : StateAccount) : Prop :=
  s.owner.length = 32 ∧ s.withdrawalSigner.length = 20 ∧
  s.nextDepositNum < 2 ^ 64 ∧ s.nextStakeNum < 2 ^ 64 ∧
  s.supportedTokens.length < 2 ^ 32 ∧ (∀ t ∈ s.supportedTokens, t.length = 32) ∧
  s.minDeposits.length < 2 ^ 32 ∧
    (∀ p ∈ s.minDeposits, (p : List Nat × Nat).1.length = 32 ∧ p.2 < 2 ^ 64) ∧
  s.timelockAuthorities.length < 2 ^ 32 ∧ (∀ t ∈ s.timelockAuthorities, t.length = 32) ∧
  s.timelockDelay < 2 ^ 64 ∧
  s.pendingOperations.length < 2 ^ 32 ∧
    (∀ op ∈ s.pendingOperations, (op : TimelockOperation).data.length < 2 ^ 32 ∧
      op.queuedAt < 2 ^ 64 ∧ op.canExecuteAt < 2 ^ 64) ∧
  (s.domainSeparator.getD (List.replicate 32 0)).length = 32

/-! ## Account discriminators (`computeDiscriminator` and
`checkStateDiscriminator` in the devnet state-check script) -/

/-- The 8-byte Anchor account discriminator: the first eight bytes of
`sha256("account:" ++ name)`, as computed by `computeDiscriminator`. -/
def computeDiscriminator (name : String) : List Nat :=
  (sha256 (asciiBytes ("account:" ++ name))).take 8

/-- `checkStateDiscriminator` from the state-check script: compare the first
eight bytes of the buffer with the expected `State` discriminator. -/
def checkStateDiscriminator (data : List Nat) : Bool :=
  data.take 8 = computeDiscriminator "State"

/-! ## Replay-record addressing (`withdraw-operations.ts`, withdrawal
scripts): seeds `"withdrawal_account"` and the 8-byte little-endian bucket. -/

/-- The seed list from which the per-bucket replay record's deterministic
address is derived: the fixed string `"withdrawal_account"` and the bucket
index `id / 4000` as eight little-endian bytes, exactly as passed to
`findProgramAddressSync`. -/
def withdrawalRecordSeeds (wid : Nat) : List (List Nat) :=
  [asciiBytes "withdrawal_account", leBytes 8 (wid / 4000)]

/-! ## The on-chain operations, modelled from the specification

The Rust program (`programs/rbx/src/lib.rs`) is not part of this source
tree; only the test harness that drives it is.  The definitions below model
the program's entry points from the specification (sections 4.2 to 4.5 and 7)
and from the behaviour the in-tree tests exercise. -/

/-- The error taxonomy of the specification (section 7). -/
inductive LedgerError where
  | unauthorized
  | assetNotSupported
  | belowMinimumDeposit
  | timelockDelayNotMet
  | withdrawalAlreadyProcessed
  | invalidSignature
  | typeMismatch
  | reentrancyDetected
  | insufficientFunds
  | operationNotFound
deriving Repr, DecidableEq

/-- Modelled from the spec: the on-chain account decoder of the Binary
Account Codec (section 4.1), which is not in this source tree.  It verifies
the fixed-width discriminator prefix before interpreting the remainder and
fails with `TypeMismatch` otherwise; the prefix check follows
`computeDiscriminator` from the in-tree state-check script and the body
decoder is `deserializeStateAccount` from `tests/utils.ts`. -/
def decodeAccountChecked (name : String) (dec : List Nat → α) (data : List Nat) :
    Except LedgerError α :=
  if data.take 8 = computeDiscriminator name then Except.ok (dec data)
  else Except.error LedgerError.typeMismatch

/-- The withdrawal tuple a signature authorizes. -/
structure WithdrawalMessage where
  wid : Nat
  token : List Nat
  trader : List Nat
  amount : Nat
deriving Repr, DecidableEq

/-- Modelled from the spec: an authorization signature for the Signature
Verifier (section 4.2).  The typed-hash digest is a fixed injective encoding
of the tuple `(id, token, trader, amount)` (up to hash collisions), so the
digest is modelled by the tuple itself; secp256k1 recovery is modelled
ideally as yielding the producing address over the digest a signature was
made for and no address over any other digest. -/
structure WithdrawalSig where
  message : WithdrawalMessage
  signer : List Nat
deriving Repr, DecidableEq

/-- Modelled from the spec: address recovery over a signing digest
(section 4.2, step 4), in the ideal-signature model above. -/
def recoverSigner (sig : WithdrawalSig) (msg : WithdrawalMessage) : Option (List Nat) :=
  if sig.message = msg then some sig.signer else none

/-- The full modelled ledger: the state account, the custody balance per
asset, the beneficiary balance per asset and holder, and the set of consumed
withdrawal identifiers of the Replay Guard. -/
structure LedgerEnv where
  st : StateAccount
  custody : List Nat → Nat
  userBal : List Nat → List Nat → Nat
  processed : Nat → Bool

/-- Modelled from the spec: the state change of a successful `withdraw`
(section 4.4): move `amount` of `token` from custody to the beneficiary
`trader` and mark identifier `wid` consumed in the Replay Guard. -/
def withdrawUpdate (e : LedgerEnv) (wid : Nat) (token trader : List Nat)
    (amount : Nat) : LedgerEnv :=
  { e with
    custody := fun t => if t = token then e.custody t - amount else e.custody t,
    userBal := fun t u =>
      if t = token ∧ u = trader then e.userBal t u + amount else e.userBal t u,
    processed := fun i => if i = wid then true else e.processed i }

/-- Modelled from the spec: `withdraw` (sections 4.2 to 4.4), body.  Requires
the reentrancy flag unlocked, then Signature Verifier success over
`(id, token, trader, amount)` against the registered `authorizationKey`,
then Replay Guard `checkAndMark(id)`, then sufficient custody, and finally
applies `withdrawUpdate`. -/
def withdraw (e : LedgerEnv) (wid : Nat) (token trader : List Nat) (amount : Nat)
    (sig : WithdrawalSig) : Except LedgerError LedgerEnv :=
  if e.st.reentryLockStatus ≠ 0 then Except.error LedgerError.reentrancyDetected
  else match recoverSigner sig ⟨wid, token, trader, amount⟩ with
    | none => Except.error LedgerError.invalidSignature
    | some addr =>
      if addr ≠ e.st.withdrawalSigner then Except.error LedgerError.invalidSignature
      else if e.processed wid then Except.error LedgerError.withdrawalAlreadyProcessed
      else if e.custody token < amount then Except.error LedgerError.insufficientFunds
      else Except.ok (withdrawUpdate e wid token trader amount)

/-- The state a withdrawal transaction leaves behind: the new ledger on
success, the unchanged ledger on any error (the host ledger discards the
whole transaction, section 5). -/
def applyWithdraw (e : LedgerEnv) (wid : Nat) (token trader : List Nat) (amount : Nat)
    (sig : WithdrawalSig) : LedgerEnv :=
  match withdraw e wid token trader amount sig with
  | Except.ok e2 => e2
  | Except.error _ => e

/-- Modelled from the spec: `queue` of the Timelock Governor (section 4.5).
Requires the caller in `timelockAuthorities`; appends the operation with
`queuedAt = now` and `executableAt = now + timelockDelaySeconds`. -/
def queueOperation (s : StateAccount) (authority : List Nat) (opType : Nat)
    (payload : List Nat) (now : Nat) : Except LedgerError StateAccount :=
  if authority ∈ s.timelockAuthorities then
    Except.ok { s with pendingOperations :=
      s.pendingOperations ++ [⟨opType, payload, now, now + s.timelockDelay⟩] }
  else Except.error LedgerError.unauthorized

/-- Modelled from the spec: the kind-specific mutation applied when a queued
operation executes (section 4.5): append to `supportedAssets` and
`minimumDeposit` (kind 1), replace the authorization key (kind 2, the
harness queues 20-byte payloads), replace the delay (kind 3, 8-byte
little-endian payload), append an authority (kind 4, 32-byte payload);
unknown kinds mutate nothing. -/
def applyOperation (s : StateAccount) (op : TimelockOperation) : StateAccount :=
  match op.operationType with
  | 1 => { s with supportedTokens := s.supportedTokens ++ [op.data.take 32],
                  minDeposits := s.minDeposits ++
                    [(op.data.take 32, leVal ((op.data.drop 32).take 8))] }
  | 2 => { s with withdrawalSigner := op.data.take 20 }
  | 3 => { s with timelockDelay := leVal (op.data.take 8) }
  | 4 => { s with timelockAuthorities := s.timelockAuthorities ++ [op.data.take 32] }
  | _ => s

/-- Modelled from the spec: `execute(index)` of the Timelock Governor
(section 4.5).  Requires the caller in `timelockAuthorities` and
`now >= executableAt` (else `TimelockDelayNotMet`); applies the mutation and
removes the entry by index. -/
def executeOperation (s : StateAccount) (authority : List Nat) (index now : Nat) :
    Except LedgerError StateAccount :=
  if authority ∈ s.timelockAuthorities then
    match s.pendingOperations.get? index with
    | none => Except.error LedgerError.operationNotFound
    | some op =>
      if now < op.canExecuteAt then Except.error LedgerError.timelockDelayNotMet
      else Except.ok
        (applyOperation { s with pendingOperations := s.pendingOperations.eraseIdx index } op)
  else Except.error LedgerError.unauthorized

/-- Modelled from the spec: `cancel(index)` of the Timelock Governor
(section 4.5).  Requires the caller in `timelockAuthorities`; removes the
entry without applying it. -/
def cancelOperation (s : StateAccount) (authority : List Nat) (index : Nat) :
    Except LedgerError StateAccount :=
  if authority ∈ s.timelockAuthorities then
    if index < s.pendingOperations.length then
      Except.ok { s with pendingOperations := s.pendingOperations.eraseIdx index }
    else Except.error LedgerError.operationNotFound
  else Except.error LedgerError.unauthorized

/-- Modelled from the spec: the `supportAsset` administration entry point
(section 6) as exercised by the in-tree test harness (`supportToken` in
`tests/basic-setup.ts`): an authority adds a supported asset together with
its minimum deposit, taking effect immediately with no queued operation. -/
def supportToken (s : StateAccount) (authority tokenMint : List Nat) (minDeposit : Nat) :
    Except LedgerError StateAccount :=
  if authority ∈ s.timelockAuthorities then
    Except.ok { s with supportedTokens := s.supportedTokens ++ [tokenMint],
                       minDeposits := s.minDeposits ++ [(tokenMint, minDeposit)] }
  else Except.error LedgerError.unauthorized

/-- A governance-side command: one invocation of a state-account entry
point. -/
inductive GovCommand where
  | queue (authority : List Nat) (opType : Nat) (payload : List Nat)
  | execute (authority : List Nat) (index : Nat)
  | cancel (authority : List Nat) (index : Nat)
  | support (authority tokenMint : List Nat) (minDeposit : Nat)
deriving Repr, DecidableEq

/-- The state account a governance transaction leaves behind at time `now`:
the new account on success, the unchanged account on error. -/
def stepGov (s : StateAccount) (now : Nat) (c : GovCommand) : StateAccount :=
  let r := match c with
    | GovCommand.queue a t p => queueOperation s a t p now
    | GovCommand.execute a i => executeOperation s a i now
    | GovCommand.cancel a i => cancelOperation s a i
    | GovCommand.support a m d => supportToken s a m d
  match r with
  | Except.ok s2 => s2
  | Except.error _ => s

/-! ## Concrete sample values used to instantiate the theorems -/

/-- A sample timelock authority key. -/
def sampleAuthority : List Nat := List.replicate 32 7

/-- A sample 20-byte authorization (withdrawal-signer) address. -/
def sampleSigner : List Nat := List.replicate 20 2

/-- A sample supported asset mint. -/
def sampleMint : List Nat := List.replicate 32 3

/-- A sample beneficiary address. -/
def sampleTrader : List Nat := List.replicate 32 4

/-- A sample queued operation: set the timelock delay to 10, queued at 100,
executable at 105. -/
def sampleOperation : TimelockOperation := ⟨3, leBytes 8 10, 100, 105⟩

/-- A sample well-formed ledger state. -/
def sampleState : StateAccount :=
  ⟨List.replicate 32 1, sampleSigner, 5, 6, 0, 254, 253,
   [sampleMint], [(sampleMint, 1000000)], [sampleAuthority], 5,
   [sampleOperation], some (List.replicate 32 11)⟩

/-- A sample ledger environment around `sampleState`. -/
def sampleEnv : LedgerEnv :=
  ⟨sampleState, fun _ => 1000000, fun _ _ => 0, fun _ => false⟩

/-- A sample signature by the registered authorization key over the tuple
`(12345, sampleMint, sampleTrader, 500000)`. -/
def sampleSig : WithdrawalSig := ⟨⟨12345, sampleMint, sampleTrader, 500000⟩, sampleSigner⟩

set_option maxRecDepth 100000

set_option maxHeartbeats 16000000

/-! ## Helper lemmas on byte encodings -/

theorem leBytes_length (k n : Nat) : (leBytes k n).length = k := by
  simp [leBytes]

theorem beBytes_length (k n : Nat) : (beBytes k n).length = k := by
  simp [beBytes]

theorem leBytes_succ (k n : Nat) : leBytes (k + 1) n = n % 256 :: leBytes k (n / 256) := by
  simp only [leBytes, List.range_succ_eq_map, List.map_cons, List.map_map, pow_zero,
    Nat.div_one, List.cons.injEq, true_and]
  apply List.map_congr_left
  intro i _
  simp [Function.comp, pow_succ, Nat.div_div_eq_div_mul, Nat.mul_comm]

theorem leVal_cons (x : Nat) (l : List Nat) : leVal (x :: l) = leVal l * 256 + x := rfl

theorem leVal_leBytes (k n : Nat) : leVal (leBytes k n) = n % 256 ^ k := by
  induction k generalizing n with
  | zero => simp [leVal, leBytes, Nat.mod_one]
  | succ k ih =>
    rw [leBytes_succ, leVal_cons, ih, pow_succ, Nat.mul_comm (256 ^ k) 256, Nat.mod_mul]
    ring

theorem beBytes_eight (n : Nat) :
    beBytes 8 n = [n / 256 ^ 7 % 256, n / 256 ^ 6 % 256, n / 256 ^ 5 % 256, n / 256 ^ 4 % 256,
      n / 256 ^ 3 % 256, n / 256 ^ 2 % 256, n / 256 % 256, n % 256] := by
  simp [beBytes, List.range_succ]

theorem beBytes_four (n : Nat) :
    beBytes 4 n = [n / 256 ^ 3 % 256, n / 256 ^ 2 % 256, n / 256 % 256, n % 256] := by
  simp [beBytes, List.range_succ]

theorem u32PaddedBE_eq_beBytes {n : Nat} (h : n < 2 ^ 32) : u32PaddedBE n = beBytes 8 n := by
  rw [u32PaddedBE, beBytes_eight, beBytes_four, Nat.mod_eq_of_lt h]
  simp only [List.cons_append, List.nil_append, List.cons.injEq, and_true]
  norm_num
  omega

theorem u32PaddedBE_eq_iff {n : Nat} (h : n < 2 ^ 64) :
    u32PaddedBE n = beBytes 8 n ↔ n < 2 ^ 32 := by
  constructor
  · intro he
    rw [u32PaddedBE, beBytes_eight, beBytes_four] at he
    simp only [List.cons_append, List.nil_append, List.cons.injEq] at he
    norm_num at he
    omega
  · exact fun h2 => u32PaddedBE_eq_beBytes h2

/-! ## Codec reader lemmas -/

theorem readPubkey_append (x r : List Nat) (h : x.length = 32) :
    readPubkey (x ++ r) = (x, r) := by
  simp [readPubkey, List.take_left' h, List.drop_left' h]

theorem readMinDeposit_append (p : List Nat × Nat) (r : List Nat)
    (h1 : p.1.length = 32) (h2 : p.2 < 2 ^ 64) :
    readMinDeposit ((p.1 ++ leBytes 8 p.2) ++ r) = (p, r) := by
  rw [readMinDeposit, List.append_assoc, List.take_left' h1, List.drop_left' h1,
    List.take_left' (leBytes_length 8 p.2), List.drop_left' (leBytes_length 8 p.2),
    leVal_leBytes]
  have : p.2 % 256 ^ 8 = p.2 := Nat.mod_eq_of_lt (by norm_num; omega)
  rw [this]

theorem readOperation_append (op : TimelockOperation) (r : List Nat)
    (hd : op.data.length < 2 ^ 32) (hq : op.queuedAt < 2 ^ 64) (hc : op.canExecuteAt < 2 ^ 64) :
    readOperation (encodeOperation op ++ r) = (op, r) := by
  rw [encodeOperation, readOperation]
  simp only [List.cons_append, List.headD_cons, List.tail_cons, List.append_assoc]
  rw [List.take_left' (leBytes_length 4 op.data.length),
    List.drop_left' (leBytes_length 4 op.data.length), leVal_leBytes,
    Nat.mod_eq_of_lt (show op.data.length < 256 ^ 4 by norm_num; omega),
    List.take_left, List.drop_left,
    List.take_left' (leBytes_length 8 op.queuedAt), List.drop_left' (leBytes_length 8 op.queuedAt),
    List.take_left' (leBytes_length 8 op.canExecuteAt),
    List.drop_left' (leBytes_length 8 op.canExecuteAt), leVal_leBytes, leVal_leBytes,
    Nat.mod_eq_of_lt (show op.queuedAt < 256 ^ 8 by norm_num; omega),
    Nat.mod_eq_of_lt (show op.canExecuteAt < 256 ^ 8 by norm_num; omega)]

theorem readItems_append {α : Type} (f : List Nat → α × List Nat) (enc : α → List Nat)
    (xs : List α) (r : List Nat)
    (hx : ∀ x ∈ xs, ∀ t, f (enc x ++ t) = (x, t)) :
    readItems f xs.length ((xs.map enc).flatten ++ r) = (xs, r) := by
  induction xs with
  | nil => simp [readItems]
  | cons x xs ih =>
    simp only [List.map_cons, List.flatten_cons, List.length_cons, List.append_assoc]
    rw [readItems, hx x (List.mem_cons_self x xs)]
    simp only []
    rw [ih (fun y hy t => hx y (List.mem_cons_of_mem x hy) t)]

/-- C6: the binary layout of the LedgerState account is, in order, the
8-byte discriminator, 32-byte owner, 20-byte authorization key, the two
8-byte little-endian counters, the reentrancy byte, the two bump bytes, the
three `u32`-count-prefixed vectors, the 8-byte delay, the
`u32`-count-prefixed pending operations (1-byte kind, length-prefixed
payload, two 8-byte timestamps each) and the presence-prefixed optional
domain descriptor: decoding a buffer in this layout yields exactly the
LedgerState fields. -/
theorem c6_state_layout_roundtrip (disc : List Nat) (s : StateAccount)
    (hd : disc.length = 8) (hwf : WFState s) :
    deserializeStateAccount (disc ++ encodeStateBody s) = s := by
  obtain ⟨ow, sg, dep, stk, re, tb, sb, toks, mins, auths, dly, ops, dom⟩ := s
  obtain ⟨h1, h2, h3, h4, h5, h6, h7, h8, h9, h10, h11, h12, h13, h14⟩ := hwf
  simp only at h1 h2 h3 h4 h5 h6 h7 h8 h9 h10 h11 h12 h13 h14
  have tkle : ∀ k n (r : List Nat), (leBytes k n ++ r).take k = leBytes k n :=
    fun k n _ => List.take_left' (leBytes_length k n)
  have drle : ∀ k n (r : List Nat), (leBytes k n ++ r).drop k = r :=
    fun k n _ => List.drop_left' (leBytes_length k n)
  have edep : leVal (leBytes 8 dep) = dep := by
    rw [leVal_leBytes]; exact Nat.mod_eq_of_lt (lt_of_lt_of_le h3 (by norm_num))
  have estk : leVal (leBytes 8 stk) = stk := by
    rw [leVal_leBytes]; exact Nat.mod_eq_of_lt (lt_of_lt_of_le h4 (by norm_num))
  have edly : leVal (leBytes 8 dly) = dly := by
    rw [leVal_leBytes]; exact Nat.mod_eq_of_lt (lt_of_lt_of_le h11 (by norm_num))
  have entok : leVal (leBytes 4 toks.length) = toks.length := by
    rw [leVal_leBytes]; exact Nat.mod_eq_of_lt (lt_of_lt_of_le h5 (by norm_num))
  have enmin : leVal (leBytes 4 mins.length) = mins.length := by
    rw [leVal_leBytes]; exact Nat.mod_eq_of_lt (lt_of_lt_of_le h7 (by norm_num))
  have enauth : leVal (leBytes 4 auths.length) = auths.length := by
    rw [leVal_leBytes]; exact Nat.mod_eq_of_lt (lt_of_lt_of_le h9 (by norm_num))
  have enops : leVal (leBytes 4 ops.length) = ops.length := by
    rw [leVal_leBytes]; exact Nat.mod_eq_of_lt (lt_of_lt_of_le h12 (by norm_num))
  have htoks : ∀ r, readItems readPubkey toks.length (toks.flatten ++ r) = (toks, r) := by
    intro r
    have := readItems_append readPubkey id toks r
      (fun x hx t => readPubkey_append x t (h6 x hx))
    simpa using this
  have hmins : ∀ r, readItems readMinDeposit mins.length
      ((mins.map (fun p => p.1 ++ leBytes 8 p.2)).flatten ++ r) = (mins, r) :=
    fun r => readItems_append readMinDeposit (fun p => p.1 ++ leBytes 8 p.2) mins r
      (fun p hp t => readMinDeposit_append p t (h8 p hp).1 (h8 p hp).2)
  have hauths : ∀ r, readItems readPubkey auths.length (auths.flatten ++ r) = (auths, r) := by
    intro r
    have := readItems_append readPubkey id auths r
      (fun x hx t => readPubkey_append x t (h10 x hx))
    simpa using this
  have hops : ∀ r, readItems readOperation ops.length
      ((ops.map encodeOperation).flatten ++ r) = (ops, r) :=
    fun r => readItems_append readOperation encodeOperation ops r
      (fun op hop t => readOperation_append op t (h13 op hop).1 (h13 op hop).2.1 (h13 op hop).2.2)
  cases dom with
  | none =>
    simp only [deserializeStateAccount, encodeStateBody, List.cons_append, List.nil_append,
      List.drop_left' hd, List.take_left' h1, List.drop_left' h1,
      List.take_left' h2, List.drop_left' h2, tkle, drle, edep, estk, edly,
      entok, enmin, enauth, enops, List.headD_cons, List.tail_cons,
      htoks, hmins, hauths, hops, List.append_assoc]
    simp [StateAccount.mk.injEq, htoks, hmins, hauths, hops]
  | some d =>
    have hd32 : d.take 32 = d := by
      have hlen : d.length = 32 := by simpa using h14
      rw [← hlen]; exact List.take_length d
    simp only [deserializeStateAccount, encodeStateBody, List.cons_append, List.nil_append,
      List.drop_left' hd, List.take_left' h1, List.drop_left' h1,
      List.take_left' h2, List.drop_left' h2, tkle, drle, edep, estk, edly,
      entok, enmin, enauth, enops, List.headD_cons, List.tail_cons,
      htoks, hmins, hauths, hops, List.append_assoc]
    simp [StateAccount.mk.injEq, htoks, hmins, hauths, hops, hd32]

/-! ## Digest lemmas -/

theorem withdrawalData_eq_spec_of_lt {wid amount : Nat} (token trader : List Nat)
    (hw : wid < 2 ^ 32) (ha : amount < 2 ^ 32) :
    withdrawalData wid token trader amount = specWithdrawalData wid token trader amount := by
  rw [withdrawalData, specWithdrawalData, u32PaddedBE_eq_beBytes hw, u32PaddedBE_eq_beBytes ha]

theorem signingDigest_eq_spec_of_lt (contract token trader : List Nat) {wid amount : Nat}
    (hw : wid < 2 ^ 32) (ha : amount < 2 ^ 32) :
    signingDigest contract wid token trader amount =
      specSigningDigest contract wid token trader amount := by
  rw [signingDigest, specSigningDigest, domainSeparator, domainNameHash, domainVersionHash,
    withdrawalHash, specWithdrawalHash, withdrawalData_eq_spec_of_lt token trader hw ha]

theorem withdrawalData_eq_spec_iff (token trader : List Nat) {wid amount : Nat}
    (hw : wid < 2 ^ 64) (ha : amount < 2 ^ 64) :
    withdrawalData wid token trader amount = specWithdrawalData wid token trader amount ↔
      wid < 2 ^ 32 ∧ amount < 2 ^ 32 := by
  constructor
  · intro he
    rw [withdrawalData, specWithdrawalData] at he
    simp only [List.append_assoc] at he
    have h1 := List.append_cancel_left he
    have h2 := List.append_inj h1 (by simp [u32PaddedBE, beBytes_length])
    have h3 := List.append_cancel_left h2.2
    have h4 := List.append_cancel_left h3
    exact ⟨(u32PaddedBE_eq_iff hw).1 h2.1, (u32PaddedBE_eq_iff ha).1 h4⟩
  · rintro ⟨hw2, ha2⟩
    exact withdrawalData_eq_spec_of_lt token trader hw2 ha2

/-- C1: For tuples whose identifier and amount fit in 32 bits, the digest
`signWithdrawal` signs is exactly the claimed construction: keccak256 of the
two literal bytes `0x19 0x01`, the domain descriptor over the domain type
hash, the hashed name `"RabbitXWithdrawal"`, the hashed version `"1"`, the
zero-padded `"SOLANA"` chain tag and the full 32-byte ledger-state address,
and the withdrawal digest with big-endian 64-bit identifier and amount.  The
32-bit bound is forced: `signWithdrawal` keeps only the low 32 bits of each
value (see the corresponding counterexample). -/
theorem c1_signingDigest_matches_spec (contract token trader : List Nat) (wid amount : Nat)
    (hw : wid < 2 ^ 32) (ha : amount < 2 ^ 32) :
    signingDigest contract wid token trader amount =
      specSigningDigest contract wid token trader amount :=
  signingDigest_eq_spec_of_lt contract token trader hw ha

/-- Witness for C1 at a concrete withdrawal tuple. -/
theorem c1_signingDigest_matches_spec_witness :
    signingDigest (List.replicate 32 1) 12345 sampleMint sampleTrader 500000 =
      specSigningDigest (List.replicate 32 1) 12345 sampleMint sampleTrader 500000 :=
  c1_signingDigest_matches_spec (List.replicate 32 1) sampleMint sampleTrader 12345 500000
    (by decide) (by decide)

/-- C10: `signWithdrawal` encodes the identifier and the amount as eight
big-endian bytes whose upper four bytes are always zero, keeping only the low
32 bits of each value; the byte string it hashes into the withdrawal digest
coincides with the byte string over the true 64-bit values exactly when both
values are below `2 ^ 32`, and within that range the signed digest equals
the program's big-endian-64 digest. -/
theorem c10_signWithdrawal_truncates (contract token trader : List Nat) (wid amount : Nat)
    (hw : wid < 2 ^ 64) (ha : amount < 2 ^ 64) :
    (withdrawalData wid token trader amount =
      withdrawalTypeHash ++ ([0, 0, 0, 0] ++ beBytes 4 (wid % 2 ^ 32)) ++ token ++ trader ++
        ([0, 0, 0, 0] ++ beBytes 4 (amount % 2 ^ 32))) ∧
    (withdrawalData wid token trader amount = specWithdrawalData wid token trader amount ↔
      wid < 2 ^ 32 ∧ amount < 2 ^ 32) ∧
    (wid < 2 ^ 32 → amount < 2 ^ 32 →
      signingDigest contract wid token trader amount =
        specSigningDigest contract wid token trader amount) := by
  refine ⟨rfl, withdrawalData_eq_spec_iff token trader hw ha, ?_⟩
  exact fun hw2 ha2 => signingDigest_eq_spec_of_lt contract token trader hw2 ha2

/-- Witness for C10 at a concrete tuple. -/
theorem c10_signWithdrawal_truncates_witness :
    withdrawalData 12345 sampleMint sampleTrader 500000 =
      specWithdrawalData 12345 sampleMint sampleTrader 500000 :=
  (c10_signWithdrawal_truncates (List.replicate 32 1) sampleMint sampleTrader 12345 500000
    (by decide) (by decide)).2.1.mpr (by decide)

/-- Witness for C6: the sample state round-trips through the layout. -/
theorem c6_state_layout_roundtrip_witness :
    deserializeStateAccount (List.replicate 8 0 ++ encodeStateBody sampleState) = sampleState :=
  c6_state_layout_roundtrip (List.replicate 8 0) sampleState (by decide)
    (by unfold WFState; decide)

/-- C7: decoding an account buffer verifies the fixed-width discriminator
prefix before interpreting the remainder: a buffer whose first eight bytes
differ from the account type's discriminator fails with `TypeMismatch` and
no field of it is decoded, while a matching buffer decodes through the field
decoder; the prefix comparison is `checkStateDiscriminator`'s. -/
theorem c7_discriminator_checked {α : Type} (name : String) (dec : List Nat → α)
    (data : List Nat) :
    (data.take 8 = computeDiscriminator name →
      decodeAccountChecked name dec data = Except.ok (dec data)) ∧
    (data.take 8 ≠ computeDiscriminator name →
      decodeAccountChecked name dec data = Except.error LedgerError.typeMismatch) ∧
    (checkStateDiscriminator data = true ↔ data.take 8 = computeDiscriminator "State") := by
  refine ⟨fun h => ?_, fun h => ?_, ?_⟩
  · simp [decodeAccountChecked, h]
  · simp [decodeAccountChecked, h]
  · simp [checkStateDiscriminator]

/-- Witness for C7: an all-zero buffer is rejected with `TypeMismatch`. -/
theorem c7_discriminator_checked_witness :
    decodeAccountChecked "State" deserializeStateAccount (List.replicate 100 0) =
      Except.error LedgerError.typeMismatch :=
  (c7_discriminator_checked "State" deserializeStateAccount (List.replicate 100 0)).2.1
    (by decide)

/-- C8: the replay record for identifier `id` is addressed by the bucket
`id / 4000`: the derivation seeds are the fixed string
`"withdrawal_account"` and the bucket as eight little-endian bytes, so two
identifiers get the same seed list (and hence the same derived record
address, for the deterministic derivation) exactly when they fall in the
same bucket. -/
theorem c8_replay_bucket_addressing (wid wid2 : Nat)
    (hb : wid / 4000 < 2 ^ 64) (hb2 : wid2 / 4000 < 2 ^ 64) :
    (withdrawalRecordSeeds wid = withdrawalRecordSeeds wid2 ↔ wid / 4000 = wid2 / 4000) ∧
    (∀ derive : List (List Nat) → List Nat, wid / 4000 = wid2 / 4000 →
      derive (withdrawalRecordSeeds wid) = derive (withdrawalRecordSeeds wid2)) := by
  constructor
  · constructor
    · intro he
      simp only [withdrawalRecordSeeds, List.cons.injEq, and_true, true_and] at he
      have hv := congrArg leVal he
      rw [leVal_leBytes, leVal_leBytes] at hv
      have e1 : wid / 4000 % 256 ^ 8 = wid / 4000 :=
        Nat.mod_eq_of_lt (lt_of_lt_of_le hb (by norm_num))
      have e2 : wid2 / 4000 % 256 ^ 8 = wid2 / 4000 :=
        Nat.mod_eq_of_lt (lt_of_lt_of_le hb2 (by norm_num))
      rw [e1, e2] at hv
      exact hv
    · intro he
      simp [withdrawalRecordSeeds, he]
  · intro derive he
    simp [withdrawalRecordSeeds, he]

/-- Witness for C8: identifiers 12345 and 12349 share bucket 3 and hence one
record; the seeds are equal. -/
theorem c8_replay_bucket_addressing_witness :
    withdrawalRecordSeeds 12345 = withdrawalRecordSeeds 12349 :=
  (c8_replay_bucket_addressing 12345 12349 (by decide) (by decide)).1.mpr (by decide)

/-! ## Withdrawal state-machine theorems -/

/-- C2: a withdraw call with a signature valid for
`(id, asset, beneficiary, amount)` succeeds exactly once: the first call
transfers `amount` from custody to the beneficiary and marks `id`; a second
call with the identical `id` (and the same valid signature) fails with
`WithdrawalAlreadyProcessed` and leaves the whole state, in particular all
custody and beneficiary balances, unchanged; indeed no later withdraw call
with the identical `id` can ever succeed. -/
theorem c2_withdraw_succeeds_exactly_once (e : LedgerEnv) (wid : Nat)
    (token trader : List Nat) (amount : Nat) (sig : WithdrawalSig)
    (hsig : sig = ⟨⟨wid, token, trader, amount⟩, e.st.withdrawalSigner⟩)
    (hre : e.st.reentryLockStatus = 0)
    (hnew : e.processed wid = false)
    (hcust : amount ≤ e.custody token) :
    withdraw e wid token trader amount sig =
      Except.ok (withdrawUpdate e wid token trader amount) ∧
    (withdrawUpdate e wid token trader amount).custody token = e.custody token - amount ∧
    (withdrawUpdate e wid token trader amount).userBal token trader =
      e.userBal token trader + amount ∧
    (∀ t, t ≠ token → (withdrawUpdate e wid token trader amount).custody t = e.custody t) ∧
    (withdrawUpdate e wid token trader amount).processed wid = true ∧
    withdraw (withdrawUpdate e wid token trader amount) wid token trader amount sig =
      Except.error LedgerError.withdrawalAlreadyProcessed ∧
    applyWithdraw (withdrawUpdate e wid token trader amount) wid token trader amount sig =
      withdrawUpdate e wid token trader amount ∧
    (∀ token2 trader2 amount2 sig2 e2,
      withdraw (withdrawUpdate e wid token trader amount) wid token2 trader2 amount2 sig2 ≠
        Except.ok e2) := by
  have hver : recoverSigner sig ⟨wid, token, trader, amount⟩ = some e.st.withdrawalSigner := by
    rw [hsig]; simp [recoverSigner]
  have hok : withdraw e wid token trader amount sig =
      Except.ok (withdrawUpdate e wid token trader amount) := by
    unfold withdraw
    rw [hver]
    simp [hre, hnew, Nat.not_lt.mpr hcust]
  have hst : (withdrawUpdate e wid token trader amount).st = e.st := rfl
  have hproc : (withdrawUpdate e wid token trader amount).processed wid = true := by
    simp [withdrawUpdate]
  have h2nd : withdraw (withdrawUpdate e wid token trader amount) wid token trader amount sig =
      Except.error LedgerError.withdrawalAlreadyProcessed := by
    unfold withdraw
    rw [hst, hver]
    simp [hre, hproc]
  refine ⟨hok, by simp [withdrawUpdate], by simp [withdrawUpdate], ?_, hproc, h2nd, ?_, ?_⟩
  · intro t ht; simp [withdrawUpdate, ht]
  · unfold applyWithdraw; rw [h2nd]
  · intro token2 trader2 amount2 sig2 e2 hok2
    unfold withdraw at hok2
    rw [hst] at hok2
    simp only [hre] at hok2
    rcases hrec : recoverSigner sig2 ⟨wid, token2, trader2, amount2⟩ with _ | addr <;>
      rw [hrec] at hok2 <;> simp [hproc] at hok2
    split at hok2 <;> simp_all

/-- Witness for C2 at a concrete environment. -/
theorem c2_withdraw_succeeds_exactly_once_witness :
    withdraw sampleEnv 12345 sampleMint sampleTrader 500000 sampleSig =
      Except.ok (withdrawUpdate sampleEnv 12345 sampleMint sampleTrader 500000) ∧
    withdraw (withdrawUpdate sampleEnv 12345 sampleMint sampleTrader 500000) 12345 sampleMint
      sampleTrader 500000 sampleSig = Except.error LedgerError.withdrawalAlreadyProcessed :=
  ⟨(c2_withdraw_succeeds_exactly_once sampleEnv 12345 sampleMint sampleTrader 500000 sampleSig
      rfl rfl rfl (by decide)).1,
   (c2_withdraw_succeeds_exactly_once sampleEnv 12345 sampleMint sampleTrader 500000 sampleSig
      rfl rfl rfl (by decide)).2.2.2.2.2.1⟩

/-- C3: a withdraw call that reuses a signature computed over
`(id, asset, beneficiary, amount)` with any of the four components altered
fails with `InvalidSignature` (the recovery step no longer yields the
registered authorization key) and moves no value: the transaction leaves the
state unchanged. -/
theorem c3_altered_tuple_invalid_signature (e : LedgerEnv) (wid : Nat)
    (token trader : List Nat) (amount : Nat) (wid2 : Nat) (token2 trader2 : List Nat)
    (amount2 : Nat) (sig : WithdrawalSig)
    (hsig : sig = ⟨⟨wid, token, trader, amount⟩, e.st.withdrawalSigner⟩)
    (hre : e.st.reentryLockStatus = 0)
    (halter : ¬(wid = wid2 ∧ token = token2 ∧ trader = trader2 ∧ amount = amount2)) :
    withdraw e wid2 token2 trader2 amount2 sig = Except.error LedgerError.invalidSignature ∧
    applyWithdraw e wid2 token2 trader2 amount2 sig = e := by
  have hrec : recoverSigner sig ⟨wid2, token2, trader2, amount2⟩ = none := by
    rw [hsig]
    simp only [recoverSigner, WithdrawalMessage.mk.injEq, ite_eq_right_iff]
    intro hcontra
    exact absurd hcontra (by simpa using halter)
  have herr : withdraw e wid2 token2 trader2 amount2 sig =
      Except.error LedgerError.invalidSignature := by
    unfold withdraw
    rw [hrec]
    simp [hre]
  exact ⟨herr, by unfold applyWithdraw; rw [herr]⟩

/-- Witness for C3: altering the amount of a signed tuple is rejected. -/
theorem c3_altered_tuple_invalid_signature_witness :
    withdraw sampleEnv 12345 sampleMint sampleTrader 999999 sampleSig =
      Except.error LedgerError.invalidSignature :=
  (c3_altered_tuple_invalid_signature sampleEnv 12345 sampleMint sampleTrader 500000
    12345 sampleMint sampleTrader 999999 sampleSig rfl rfl (by decide)).1

/-! ## Timelock state-machine theorems -/

theorem applyOperation_pendingOperations (s : StateAccount) (op : TimelockOperation) :
    (applyOperation s op).pendingOperations = s.pendingOperations := by
  unfold applyOperation
  split <;> rfl

theorem applyOperation_mem_authorities (s : StateAccount) (op : TimelockOperation)
    {a : List Nat} (ha : a ∈ s.timelockAuthorities) :
    a ∈ (applyOperation s op).timelockAuthorities := by
  unfold applyOperation
  split <;> simp [ha]

/-- C4: executing a queued operation before its `executableAt` always fails
with `TimelockDelayNotMet` and changes no state; executing at or after
`executableAt` succeeds, applies the kind-specific mutation and removes the
entry (the pending list shrinks by one); and when the executed entry was the
last one, a second execute on the now-removed index fails instead of
re-applying. -/
theorem c4_execute_respects_delay (s : StateAccount) (a : List Nat) (i : Nat)
    (op : TimelockOperation)
    (ha : a ∈ s.timelockAuthorities)
    (hop : s.pendingOperations.get? i = some op) :
    (∀ now, now < op.canExecuteAt →
      executeOperation s a i now = Except.error LedgerError.timelockDelayNotMet ∧
      stepGov s now (GovCommand.execute a i) = s) ∧
    (∀ now, op.canExecuteAt ≤ now →
      executeOperation s a i now = Except.ok
        (applyOperation { s with pendingOperations := s.pendingOperations.eraseIdx i } op) ∧
      (applyOperation { s with pendingOperations := s.pendingOperations.eraseIdx i }
        op).pendingOperations = s.pendingOperations.eraseIdx i ∧
      (s.pendingOperations.eraseIdx i).length + 1 = s.pendingOperations.length) ∧
    (i + 1 = s.pendingOperations.length → ∀ now now2, op.canExecuteAt ≤ now →
      executeOperation (stepGov s now (GovCommand.execute a i)) a i now2 =
        Except.error LedgerError.operationNotFound) := by
  have hlt : i < s.pendingOperations.length := by
    rcases List.get?_eq_some.1 hop with ⟨h, _⟩
    exact h
  have hexe : ∀ now, op.canExecuteAt ≤ now →
      executeOperation s a i now = Except.ok
        (applyOperation { s with pendingOperations := s.pendingOperations.eraseIdx i } op) := by
    intro now hnow
    unfold executeOperation
    rw [hop]
    simp [ha, Nat.not_lt.mpr hnow]
  refine ⟨fun now hnow => ?_, fun now hnow => ?_, fun hlast now now2 hnow => ?_⟩
  · have herr : executeOperation s a i now = Except.error LedgerError.timelockDelayNotMet := by
      unfold executeOperation
      rw [hop]
      simp [ha, hnow]
    exact ⟨herr, by simp only [stepGov]; rw [herr]⟩
  · refine ⟨hexe now hnow, applyOperation_pendingOperations _ _, ?_⟩
    rw [List.length_eraseIdx, if_pos hlt]
    omega
  · have hstep : stepGov s now (GovCommand.execute a i) =
        applyOperation { s with pendingOperations := s.pendingOperations.eraseIdx i } op := by
      simp only [stepGov]
      rw [hexe now hnow]
    rw [hstep]
    unfold executeOperation
    have hmem := applyOperation_mem_authorities
      { s with pendingOperations := s.pendingOperations.eraseIdx i } op ha
    have hnone : (applyOperation { s with pendingOperations := s.pendingOperations.eraseIdx i }
        op).pendingOperations.get? i = none := by
      rw [applyOperation_pendingOperations]
      refine List.get?_eq_none.2 ?_
      rw [List.length_eraseIdx, if_pos hlt]
      omega
    rw [hnone]
    simp [hmem]

/-- Witness for C4 at the sample state: executing the sample operation
(executable at 105) at time 100 fails, at time 105 succeeds. -/
theorem c4_execute_respects_delay_witness :
    executeOperation sampleState sampleAuthority 0 100 =
      Except.error LedgerError.timelockDelayNotMet ∧
    executeOperation sampleState sampleAuthority 0 105 = Except.ok
      (applyOperation
        { sampleState with pendingOperations := sampleState.pendingOperations.eraseIdx 0 }
        sampleOperation) :=
  ⟨((c4_execute_respects_delay sampleState sampleAuthority 0 sampleOperation (by decide)
      (by decide)).1 100 (by decide)).1,
   ((c4_execute_respects_delay sampleState sampleAuthority 0 sampleOperation (by decide)
      (by decide)).2.1 105 (by decide)).1⟩

/-- C5: a caller outside `timelockAuthorities` cannot cancel: `cancel(index)`
fails with `Unauthorized` and leaves `pendingOperations` (in particular its
length) unchanged; the same authorization requirement rejects `queue` and
`execute` by that caller. -/
theorem c5_unauthorized_rejected (s : StateAccount) (a : List Nat) (i t : Nat)
    (p : List Nat) (now : Nat)
    (ha : a ∉ s.timelockAuthorities) :
    cancelOperation s a i = Except.error LedgerError.unauthorized ∧
    stepGov s now (GovCommand.cancel a i) = s ∧
    (stepGov s now (GovCommand.cancel a i)).pendingOperations.length =
      s.pendingOperations.length ∧
    queueOperation s a t p now = Except.error LedgerError.unauthorized ∧
    executeOperation s a i now = Except.error LedgerError.unauthorized := by
  have hc : cancelOperation s a i = Except.error LedgerError.unauthorized := by
    unfold cancelOperation; simp [ha]
  have hs : stepGov s now (GovCommand.cancel a i) = s := by
    simp only [stepGov]; rw [hc]
  refine ⟨hc, hs, by rw [hs], ?_, ?_⟩
  · unfold queueOperation; simp [ha]
  · unfold executeOperation; simp [ha]

/-- Witness for C5: an unauthorized caller is rejected at the sample state. -/
theorem c5_unauthorized_rejected_witness :
    cancelOperation sampleState sampleTrader 0 = Except.error LedgerError.unauthorized ∧
    queueOperation sampleState sampleTrader 3 (leBytes 8 9) 0 =
      Except.error LedgerError.unauthorized ∧
    executeOperation sampleState sampleTrader 0 200 = Except.error LedgerError.unauthorized :=
  ⟨(c5_unauthorized_rejected sampleState sampleTrader 0 3 (leBytes 8 9) 0 (by decide)).1,
   (c5_unauthorized_rejected sampleState sampleTrader 0 3 (leBytes 8 9) 0 (by decide)).2.2.2.1,
   (c5_unauthorized_rejected sampleState sampleTrader 0 3 (leBytes 8 9) 200 (by decide)).2.2.2.2⟩

/-- C9 counterexample: `supportToken` is an entry point through which an
authority applies a supported-asset and minimum-deposit change to the ledger
state immediately, with no queued operation and no waiting period: at the
sample state it succeeds at once and the supported-asset list changes in the
same transaction. -/
theorem c9_supportToken_applies_immediately :
    supportToken sampleState sampleAuthority (List.replicate 32 9) 5 =
      Except.ok { sampleState with
        supportedTokens := sampleState.supportedTokens ++ [List.replicate 32 9],
        minDeposits := sampleState.minDeposits ++ [(List.replicate 32 9, 5)] } ∧
    (stepGov sampleState 0
        (GovCommand.support sampleAuthority (List.replicate 32 9) 5)).supportedTokens ≠
      sampleState.supportedTokens := by
  constructor
  · rfl
  · decide

/-- C9 (amended): changes to the authorization signer, the timelock delay
and the timelock-authority set happen only through the timelock: any
governance command that changes one of these three fields is an
`execute(index)` of a previously queued operation whose `executableAt` has
passed, and queueing stamps `executableAt = now + timelockDelaySeconds`;
supported-asset and minimum-deposit changes, however, can also be applied
immediately through the `supportToken` entry point. -/
theorem c9_sensitive_config_changes_timelocked (s : StateAccount) (now : Nat)
    (c : GovCommand) :
    (((stepGov s now c).withdrawalSigner ≠ s.withdrawalSigner ∨
      (stepGov s now c).timelockDelay ≠ s.timelockDelay ∨
      (stepGov s now c).timelockAuthorities ≠ s.timelockAuthorities) →
      ∃ a i op, c = GovCommand.execute a i ∧ a ∈ s.timelockAuthorities ∧
        s.pendingOperations.get? i = some op ∧ op.canExecuteAt ≤ now) ∧
    (∀ a t p, a ∈ s.timelockAuthorities →
      queueOperation s a t p now = Except.ok { s with pendingOperations :=
        s.pendingOperations ++ [⟨t, p, now, now + s.timelockDelay⟩] }) := by
  constructor
  · intro hch
    cases c with
    | queue a t p =>
      exfalso
      unfold stepGov queueOperation at hch
      by_cases hm : a ∈ s.timelockAuthorities <;> simp [hm] at hch
    | cancel a i =>
      exfalso
      unfold stepGov cancelOperation at hch
      by_cases hm : a ∈ s.timelockAuthorities <;>
        by_cases hi : i < s.pendingOperations.length <;> simp [hm, hi] at hch
    | support a m d =>
      exfalso
      unfold stepGov supportToken at hch
      by_cases hm : a ∈ s.timelockAuthorities <;> simp [hm] at hch
    | execute a i =>
      by_cases hm : a ∈ s.timelockAuthorities
      · rcases hg : s.pendingOperations.get? i with _ | op
        · exfalso
          unfold stepGov executeOperation at hch
          simp only [hg] at hch
          simp [hm] at hch
        · by_cases ht : now < op.canExecuteAt
          · exfalso
            unfold stepGov executeOperation at hch
            simp only [hg] at hch
            simp [hm, ht] at hch
          · exact ⟨a, i, op, rfl, hm, hg, Nat.le_of_not_lt ht⟩
      · exfalso
        unfold stepGov executeOperation at hch
        simp [hm] at hch
  · intro a t p hm
    unfold queueOperation
    simp [hm]

/-- Witness for C9 (amended): at the sample state, executing the queued
delay change at time 105 changes the delay, and the theorem locates the
queued operation behind it. -/
theorem c9_sensitive_config_changes_timelocked_witness :
    (∃ a i op, GovCommand.execute sampleAuthority 0 = GovCommand.execute a i ∧
      a ∈ sampleState.timelockAuthorities ∧
      sampleState.pendingOperations.get? i = some op ∧ op.canExecuteAt ≤ 105) ∧
    queueOperation sampleState sampleAuthority 3 (leBytes 8 9) 105 =
      Except.ok { sampleState with pendingOperations :=
        sampleState.pendingOperations ++ [⟨3, leBytes 8 9, 105, 105 + sampleState.timelockDelay⟩] } :=
  ⟨(c9_sensitive_config_changes_timelocked sampleState 105
      (GovCommand.execute sampleAuthority 0)).1 (by decide),
   (c9_sensitive_config_changes_timelocked sampleState 105
      (GovCommand.execute sampleAuthority 0)).2 sampleAuthority 3 (leBytes 8 9) (by decide)⟩

theorem domainTypeHash_val : domainTypeHash =
    [139, 115, 195, 198, 155, 184, 254, 61, 81, 46, 204, 76, 247, 89, 204, 121,
     35, 159, 123, 23, 155, 15, 250, 202, 169, 167, 93, 82, 43, 57, 64, 15] := by
  decide

theorem domainNameHash_val : domainNameHash =
    [211, 85, 155, 114, 103, 48, 234, 55, 62, 96, 152, 200, 21, 16, 29, 21,
     180, 110, 217, 52, 147, 159, 165, 213, 161, 179, 113, 1, 25, 107, 5, 56] := by
  decide

theorem domainVersionHash_val : domainVersionHash =
    [200, 158, 253, 170, 84, 192, 242, 12, 122, 223, 97, 40, 130, 223, 9, 80,
     245, 169, 81, 99, 126, 3, 7, 205, 203, 76, 103, 47, 41, 139, 139, 198] := by
  decide

theorem withdrawalTypeHash_val : withdrawalTypeHash =
    [167, 69, 94, 218, 166, 15, 227, 162, 173, 23, 189, 249, 11, 198, 237, 102,
     6, 5, 183, 189, 69, 157, 74, 166, 94, 139, 214, 92, 182, 237, 67, 161] := by
  decide

theorem sample_domainSeparator_val : domainSeparator (List.replicate 32 1) =
    [158, 244, 86, 148, 243, 96, 143, 160, 159, 22, 60, 253, 250, 160, 249, 214,
     108, 45, 3, 253, 95, 221, 4, 53, 241, 20, 8, 62, 96, 121, 29, 118] := by
  rw [domainSeparator, domainTypeHash_val, domainNameHash_val, domainVersionHash_val]
  decide

theorem sample_withdrawalHash_at_u32 : withdrawalHash (2 ^ 32) sampleMint sampleTrader 0 =
    [164, 248, 48, 97, 8, 242, 210, 45, 226, 249, 179, 151, 141, 178, 129, 255,
     127, 83, 219, 181, 41, 170, 9, 99, 85, 149, 15, 133, 219, 234, 41, 153] := by
  rw [withdrawalHash, withdrawalData, withdrawalTypeHash_val]
  decide

theorem sample_specWithdrawalHash_at_u32 :
    specWithdrawalHash (2 ^ 32) sampleMint sampleTrader 0 =
    [4, 208, 166, 161, 98, 250, 227, 29, 254, 161, 187, 140, 237, 180, 115, 77,
     3, 210, 135, 249, 2, 122, 76, 129, 130, 32, 27, 130, 85, 166, 177, 166] := by
  rw [specWithdrawalHash, specWithdrawalData, withdrawalTypeHash_val]
  decide

theorem sample_signingDigest_at_u32 :
    signingDigest (List.replicate 32 1) (2 ^ 32) sampleMint sampleTrader 0 =
    [115, 56, 9, 155, 140, 45, 203, 187, 200, 15, 122, 43, 121, 9, 215, 47,
     94, 189, 149, 186, 44, 219, 22, 74, 56, 204, 206, 229, 38, 140, 198, 11] := by
  rw [signingDigest, sample_domainSeparator_val, sample_withdrawalHash_at_u32]
  decide

theorem sample_specSigningDigest_at_u32 :
    specSigningDigest (List.replicate 32 1) (2 ^ 32) sampleMint sampleTrader 0 =
    [158, 174, 37, 45, 51, 150, 83, 19, 120, 20, 62, 57, 205, 165, 124, 91,
     90, 205, 117, 186, 58, 101, 238, 171, 56, 22, 198, 86, 158, 87, 82, 151] := by
  rw [specSigningDigest, sample_specWithdrawalHash_at_u32, domainTypeHash_val,
    show keccak256 (asciiBytes "RabbitXWithdrawal") =
      [211, 85, 155, 114, 103, 48, 234, 55, 62, 96, 152, 200, 21, 16, 29, 21,
       180, 110, 217, 52, 147, 159, 165, 213, 161, 179, 113, 1, 25, 107, 5, 56]
      from domainNameHash_val,
    show keccak256 (asciiBytes "1") =
      [200, 158, 253, 170, 84, 192, 242, 12, 122, 223, 97, 40, 130, 223, 9, 80,
       245, 169, 81, 99, 126, 3, 7, 205, 203, 76, 103, 47, 41, 139, 139, 198]
      from domainVersionHash_val]
  decide

/-- C1 counterexample: at identifier `2 ^ 32` (asset, beneficiary, amount and
ledger address fixed concretely), the digest `signWithdrawal` signs is not
the claimed construction over big-endian 64-bit integers: the helper keeps
only the value's low 32 bits, so the two digests differ. -/
theorem c1_signingDigest_differs_at_u32 :
    signingDigest (List.replicate 32 1) (2 ^ 32) sampleMint sampleTrader 0 ≠
      specSigningDigest (List.replicate 32 1) (2 ^ 32) sampleMint sampleTrader 0 := by
  rw [sample_signingDigest_at_u32, sample_specSigningDigest_at_u32]
  decide
